import Mathlib

/-!
Shallow embedding of the Electron GUI orchestration layer of
snapchat-memories-downloader (gui/main.js and gui/app/page.tsx).

The `run-script` IPC handler drives the four-stage pipeline
(download, metadata, combine, dedupe) as subprocesses of `api.py`.
We model the handler's pure decision logic: step-list construction,
the sequential workflow loop with its stop-flag checks, the
stdout line classifier, the stop handler, process tracking, and the
renderer's exit-code classification.
-/

/-- A structured progress record, as sent over the `script-log` channel. -/
structure LogRec where
  type : String
  message : String
  deriving DecidableEq

/-- One workflow step as built by the `run-script` handler:
a display label, the api.py subcommand, and its argument list. -/
structure WfStep where
  label : String
  command : String
  args : List String
  deriving DecidableEq

/-- The workflow payload sent by the renderer (gui/app/page.tsx startProcess)
to the `run-script` handler. -/
structure WfPayload where
  htmlFile : Option String
  downloadFolder : Option String
  runDownload : Bool
  runMetadata : Bool
  runCombine : Bool
  runDedupe : Bool
  dryRun : Bool
  workerCount : Option Nat
  deriving DecidableEq

/-- JavaScript truthiness of an optional string (`undefined`, `null`
and `""` are falsy). -/
def jsTruthy : Option String → Bool
  | none => false
  | some s => !(s == "")

/-- `dryRun ? ['--dry-run'] : ['--no-dry-run']` (gui/main.js line 228). -/
def dryRunArgs (dryRun : Bool) : List String :=
  if dryRun then ["--dry-run"] else ["--no-dry-run"]

/-- `workerCount ? ['--workers', String(workerCount)] : []`
(gui/main.js line 229); the number 0 is falsy in JavaScript. -/
def workerArgs : Option Nat → List String
  | none => []
  | some n => if n = 0 then [] else ["--workers", toString n]

/-- `downloadFolder ? [...args, '--output', downloadFolder] : args`
(gui/main.js line 230). -/
def withOutput (folder : Option String) (args : List String) : List String :=
  if jsTruthy folder then args ++ ["--output", folder.getD ""] else args

/-- The html-file positional argument pushed for download/metadata steps. -/
def htmlArg : Option String → List String
  | none => []
  | some s => [s]

/-- Step-list construction of the workflow branch of the `run-script`
handler (gui/main.js lines 232-254).  If download or metadata is selected
without an html file the handler emits an error record and replies
`script-exit 1` before anything is spawned; this is the `Except.error`
case, carrying the log record and the exit code. -/
def buildSteps (p : WfPayload) : Except (LogRec × Int) (List WfStep) :=
  if p.runDownload && !(jsTruthy p.htmlFile) then
    Except.error (⟨"error", "HTML file required to download memories."⟩, 1)
  else if p.runMetadata && !(jsTruthy p.htmlFile) then
    Except.error (⟨"error", "HTML file required to add metadata."⟩, 1)
  else
    Except.ok
      ((if p.runDownload then
          [⟨"Download Memories", "download",
            withOutput p.downloadFolder (htmlArg p.htmlFile ++ workerArgs p.workerCount)⟩]
        else []) ++
       (if p.runMetadata then
          [⟨"Add GPS Metadata", "metadata",
            withOutput p.downloadFolder (htmlArg p.htmlFile ++ workerArgs p.workerCount)⟩]
        else []) ++
       (if p.runCombine then
          [⟨"Combine Overlays", "combine",
            withOutput p.downloadFolder (dryRunArgs p.dryRun ++ workerArgs p.workerCount)⟩]
        else []) ++
       (if p.runDedupe then
          [⟨"Delete Duplicates", "dedupe",
            withOutput p.downloadFolder (dryRunArgs p.dryRun ++ workerArgs p.workerCount)⟩]
        else []))

/-- The fixed stage order of the orchestrator's state machine. -/
def stageOrder : List String := ["download", "metadata", "combine", "dedupe"]

/-- Whether the payload selects a given stage. -/
def selectedStage (p : WfPayload) (c : String) : Bool :=
  if c = "download" then p.runDownload
  else if c = "metadata" then p.runMetadata
  else if c = "combine" then p.runCombine
  else if c = "dedupe" then p.runDedupe
  else false

/-- The selected stage commands in the fixed order. -/
def selectedCommands (p : WfPayload) : List String :=
  stageOrder.filter (selectedStage p)

/-- Observable events of the main process during one `run-script` run:
log records sent via `script-log`, subprocess dispatches via `runApi`
(command + argv), and `script-exit` replies. -/
inductive Ev where
  | log (r : LogRec)
  | invoke (command : String) (args : List String)
  | exitC (code : Int)
  deriving DecidableEq

/-- Environment observation for one loop iteration: the value the
`stopRequested` flag has at the pre-dispatch check (gui/main.js line 257),
the exit code the awaited subprocess resolves with, and the flag's value
at the post-completion check (line 265). -/
structure StepObs where
  stopB : Bool
  code : Int
  stopA : Bool
  deriving DecidableEq

/-- The workflow loop (gui/main.js lines 256-277) over the built step list.
The environment oracle `obs i` supplies the stop-flag readings and the
subprocess exit code of the i-th remaining iteration.  Each iteration:
check `stopRequested`; emit the `=== label ===` header; spawn the step and
await its code; re-check `stopRequested`; on a non-zero code reply
`script-exit code` and return; after the last step reply `script-exit 0`. -/
def runSteps : List WfStep → (Nat → StepObs) → List Ev
  | [], _ => [Ev.exitC 0]
  | s :: rest, obs =>
    if (obs 0).stopB then
      [Ev.log ⟨"info", "Stop requested; aborting remaining steps."⟩]
    else
      Ev.log ⟨"info", "=== " ++ s.label ++ " ==="⟩ ::
      Ev.invoke s.command s.args ::
      (if (obs 0).stopA then
        [Ev.log ⟨"info", "Stop requested; remaining steps skipped."⟩]
      else if (obs 0).code = 0 then
        runSteps rest (fun j => obs (j + 1))
      else
        [Ev.exitC (obs 0).code])

/-- The whole workflow branch of the `run-script` handler: build the step
list; on a guard failure emit the error record and `script-exit 1`;
otherwise run the loop. -/
def runWorkflow (p : WfPayload) (obs : Nat → StepObs) : List Ev :=
  match buildSteps p with
  | Except.error (m, c) => [Ev.log m, Ev.exitC c]
  | Except.ok steps => runSteps steps obs

/-- Single-command (legacy) mode (gui/main.js lines 280-287): spawn the one
command and reply `script-exit code` only if `stopRequested` is still false
after it completes. -/
def runSingle (command : String) (args : List String) (downloadFolder : Option String)
    (code : Int) (stopSeen : Bool) : List Ev :=
  Ev.invoke command (withOutput downloadFolder args) ::
  (if stopSeen then [] else [Ev.exitC code])

/-- The `stop-script` handler's replies (gui/main.js lines 290-295):
an info record, then the distinct `script-exit -1` stopped status. -/
def stopScriptEvents : List Ev :=
  [Ev.log ⟨"info", "Stopping process..."⟩, Ev.exitC (-1)]

/-- The commands of the subprocess dispatches in an event trace. -/
def invokedCommands : List Ev → List String
  | [] => []
  | Ev.invoke c _ :: rest => c :: invokedCommands rest
  | Ev.log _ :: rest => invokedCommands rest
  | Ev.exitC _ :: rest => invokedCommands rest

/-- The codes of the `script-exit` replies in an event trace. -/
def exitCodes : List Ev → List Int
  | [] => []
  | Ev.exitC c :: rest => c :: exitCodes rest
  | Ev.log _ :: rest => exitCodes rest
  | Ev.invoke _ _ :: rest => exitCodes rest

/-- The per-iteration exit codes the oracle supplies for `n` steps. -/
def stepCodes : Nat → (Nat → StepObs) → List Int
  | 0, _ => []
  | n + 1, obs => (obs 0).code :: stepCodes n (fun j => obs (j + 1))

/-- The terminal status of the sequential loop on these codes: the first
non-zero code, or 0 when all are 0. -/
def seqExitCode : List Int → Int
  | [] => 0
  | c :: rest => if c = 0 then seqExitCode rest else c

/-- How many steps the sequential loop dispatches on these codes: every
step up to and including the first one with a non-zero code. -/
def invokedCount : List Int → Nat
  | [] => 0
  | c :: rest => if c = 0 then invokedCount rest + 1 else 1

/-- The stdout line handler of `runApi` (gui/main.js lines 196-208):
`if (line.trim())` skips a line that is empty or all whitespace (the
trimmed string is falsy exactly when every character is whitespace);
otherwise `JSON.parse` is tried and on failure the verbatim line is
forwarded as a raw record.  `parse` abstracts `JSON.parse`-to-LogRec
(none when parsing throws). -/
def processLine (parse : String → Option LogRec) (line : String) : List LogRec :=
  if line.data.all Char.isWhitespace then []
  else
    match parse line with
    | some j => [j]
    | none => [⟨"raw", line⟩]

/-- A whole stdout chunk: split on newlines, classify each line in order. -/
def processChunk (parse : String → Option LogRec) (data : String) : List LogRec :=
  (data.splitOn "\n").flatMap (processLine parse)

/-- The renderer's `script-exit` listener (gui/app/page.tsx lines 47-50):
the appended record's type is success exactly for code 0. -/
def handleExit (code : Int) : LogRec :=
  ⟨if code = 0 then "success" else "error",
   "Process exited with code " ++ toString code⟩

/-- A termination action `terminateActiveProcesses` can send to one
tracked process (gui/main.js lines 21-46). -/
inductive KillAct where
  | taskkillTree (pid : Nat)
  | sig (signal : String)
  | delayedSig (ms : Nat) (signal : String)
  deriving DecidableEq

/-- The actions sent to one tracked process, by platform: on win32 a
forced `taskkill /PID pid /T /F` (nothing when the pid is falsy); on
other platforms SIGINT immediately and SIGTERM via a 1500 ms timeout. -/
def terminateOne (platform : String) (pid : Option Nat) : List KillAct :=
  if platform = "win32" then
    match pid with
    | some p => if p = 0 then [] else [KillAct.taskkillTree p]
    | none => []
  else
    [KillAct.sig "SIGINT", KillAct.delayedSig 1500 "SIGTERM"]

/-- `terminateActiveProcesses`: every tracked process gets its per-process
action list. -/
def terminateActive (platform : String) (procs : List (Option Nat)) :
    List (Option Nat × List KillAct) :=
  procs.map (fun p => (p, terminateOne platform p))

/-- Lifecycle events of tracked subprocesses: `spawn` is followed by
`trackProcess` adding the process to `activeProcesses`; the close and
exit listeners registered there delete it again. -/
inductive ProcEvent where
  | spawn (pid : Nat)
  | closeE (pid : Nat)
  | exitE (pid : Nat)
  deriving DecidableEq

/-- One tracking transition on the `activeProcesses` set. -/
def stepActive (s : Finset ℕ) : ProcEvent → Finset ℕ
  | ProcEvent.spawn p => insert p s
  | ProcEvent.closeE p => s.erase p
  | ProcEvent.exitE p => s.erase p

/-- The `activeProcesses` set after a sequence of lifecycle events,
starting from the empty set. -/
def activeAfter (evs : List ProcEvent) : Finset ℕ :=
  evs.foldl stepActive ∅

/-- One transition of the liveness status of the process with pid `p`:
its own spawn makes it live, its own close or exit ends it, any other
process's event leaves it unchanged. -/
def liveStep (p : ℕ) (b : Bool) : ProcEvent → Bool
  | ProcEvent.spawn q => if q = p then true else b
  | ProcEvent.closeE q => if q = p then false else b
  | ProcEvent.exitE q => if q = p then false else b

/-- A process is currently live when it has been spawned and has neither
closed nor exited since (its most recent lifecycle event is a spawn);
this is the claim-side characterisation of liveness. -/
def liveIn (p : ℕ) (evs : List ProcEvent) : Bool :=
  evs.foldl (liveStep p) false

/-- Messages that mutate the main process's `stopRequested` flag:
the `stop-script` handler sets it, and the `run-script` handler resets it
to false as its first statement (gui/main.js lines 149 and 292). -/
inductive HostMsg where
  | stopReq
  | runStart
  deriving DecidableEq

/-- The `stopRequested` flag after a message sequence. -/
def stopFlagAfter (b : Bool) : List HostMsg → Bool
  | [] => b
  | HostMsg.stopReq :: rest => stopFlagAfter true rest
  | HostMsg.runStart :: rest => stopFlagAfter false rest

/-! ### Helper lemmas -/

@[simp] lemma invokedCommands_nil : invokedCommands [] = [] := rfl

@[simp] lemma invokedCommands_log (r : LogRec) (l : List Ev) :
    invokedCommands (Ev.log r :: l) = invokedCommands l := rfl

@[simp] lemma invokedCommands_invoke (c : String) (a : List String) (l : List Ev) :
    invokedCommands (Ev.invoke c a :: l) = c :: invokedCommands l := rfl

@[simp] lemma invokedCommands_exitC (k : Int) (l : List Ev) :
    invokedCommands (Ev.exitC k :: l) = invokedCommands l := rfl

@[simp] lemma exitCodes_nil : exitCodes [] = [] := rfl

@[simp] lemma exitCodes_log (r : LogRec) (l : List Ev) :
    exitCodes (Ev.log r :: l) = exitCodes l := rfl

@[simp] lemma exitCodes_invoke (c : String) (a : List String) (l : List Ev) :
    exitCodes (Ev.invoke c a :: l) = exitCodes l := rfl

@[simp] lemma exitCodes_exitC (k : Int) (l : List Ev) :
    exitCodes (Ev.exitC k :: l) = k :: exitCodes l := rfl

lemma seqExitCode_of_all_zero (cs : List Int) (h : ∀ c ∈ cs, c = 0) :
    seqExitCode cs = 0 := by
  induction cs with
  | nil => rfl
  | cons c rest ih =>
    have hc : c = 0 := h c (List.mem_cons_self c rest)
    simp [seqExitCode, hc, ih fun d hd => h d (List.mem_cons_of_mem c hd)]

/-- Characterisation of the workflow loop when the stop flag is never set:
the loop dispatches the step commands up to and including the first step
with a non-zero code, and replies with exactly one `script-exit` whose
code is the first non-zero step code, or 0. -/
lemma runSteps_noStop (steps : List WfStep) (obs : Nat → StepObs)
    (hB : ∀ i, (obs i).stopB = false) (hA : ∀ i, (obs i).stopA = false) :
    invokedCommands (runSteps steps obs) =
      (steps.map WfStep.command).take (invokedCount (stepCodes steps.length obs)) ∧
    exitCodes (runSteps steps obs) = [seqExitCode (stepCodes steps.length obs)] := by
  induction steps generalizing obs with
  | nil => simp [runSteps, stepCodes, invokedCount, seqExitCode]
  | cons s rest ih =>
    have hB0 := hB 0
    have hA0 := hA 0
    by_cases hc : (obs 0).code = 0
    · have h := ih (fun j => obs (j + 1)) (fun i => hB (i + 1)) (fun i => hA (i + 1))
      simp [runSteps, hB0, hA0, hc, stepCodes, invokedCount, seqExitCode, h.1, h.2]
    · simp [runSteps, hB0, hA0, hc, stepCodes, invokedCount, seqExitCode]

@[simp] lemma selectedStage_download (p : WfPayload) :
    selectedStage p "download" = p.runDownload := rfl

@[simp] lemma selectedStage_metadata (p : WfPayload) :
    selectedStage p "metadata" = p.runMetadata := by
  simp [selectedStage]

@[simp] lemma selectedStage_combine (p : WfPayload) :
    selectedStage p "combine" = p.runCombine := by
  simp [selectedStage]

@[simp] lemma selectedStage_dedupe (p : WfPayload) :
    selectedStage p "dedupe" = p.runDedupe := by
  simp [selectedStage]

/-- The step list the handler builds carries exactly the selected
commands, in the fixed stage order. -/
lemma buildSteps_map_command (p : WfPayload) (steps : List WfStep)
    (hok : buildSteps p = Except.ok steps) :
    steps.map WfStep.command = selectedCommands p := by
  unfold buildSteps at hok
  by_cases hd : p.runDownload <;> by_cases hm : p.runMetadata <;>
    by_cases hc : p.runCombine <;> by_cases hdd : p.runDedupe <;>
    by_cases ht : jsTruthy p.htmlFile <;>
    simp_all [selectedCommands, stageOrder, List.filter] <;>
    (subst hok; simp)

/-! ### Claim theorems -/

/-- C1: for every workflow run (no stop requested, input guards passed),
the handler invokes the selected stages in the fixed order
[download, metadata, combine, dedupe] restricted to the selected subset,
dispatches steps only up to and including the first one that exits with
a non-zero code, reports that first non-zero code as the run's single
terminal `script-exit` status, and reports 0 when every selected stage
exits 0. -/
theorem c1_workflow_sequencing (p : WfPayload) (obs : Nat → StepObs) (steps : List WfStep)
    (hok : buildSteps p = Except.ok steps)
    (hB : ∀ i, (obs i).stopB = false) (hA : ∀ i, (obs i).stopA = false) :
    steps.map WfStep.command = selectedCommands p ∧
    invokedCommands (runWorkflow p obs) =
      (selectedCommands p).take (invokedCount (stepCodes steps.length obs)) ∧
    exitCodes (runWorkflow p obs) = [seqExitCode (stepCodes steps.length obs)] ∧
    ((∀ c ∈ stepCodes steps.length obs, c = 0) →
      seqExitCode (stepCodes steps.length obs) = 0) := by
  have hmap := buildSteps_map_command p steps hok
  have hrun := runSteps_noStop steps obs hB hA
  have hrw : runWorkflow p obs = runSteps steps obs := by
    simp [runWorkflow, hok]
  refine ⟨hmap, ?_, ?_, ?_⟩
  · rw [hrw, hrun.1, hmap]
  · rw [hrw, hrun.2]
  · exact seqExitCode_of_all_zero _

/-- Witness for C1 at a concrete all-stages payload whose every stage
exits 0: the run's terminal status is 0. -/
theorem c1_workflow_sequencing_witness :
    exitCodes (runWorkflow ⟨some "m.html", none, true, true, true, true, false, none⟩
      (fun _ => ⟨false, 0, false⟩)) = [0] := by
  have h := c1_workflow_sequencing
    ⟨some "m.html", none, true, true, true, true, false, none⟩
    (fun _ => ⟨false, 0, false⟩)
    [⟨"Download Memories", "download", ["m.html"]⟩,
     ⟨"Add GPS Metadata", "metadata", ["m.html"]⟩,
     ⟨"Combine Overlays", "combine", ["--no-dry-run"]⟩,
     ⟨"Delete Duplicates", "dedupe", ["--no-dry-run"]⟩]
    rfl (fun i => rfl) (fun i => rfl)
  exact h.2.2.1.trans (by decide)

/-- C5: if the workflow selects download or metadata and no html file is
supplied, the handler emits exactly one error record and `script-exit 1`,
and no stage subprocess is dispatched. -/
theorem c5_missing_html_aborts (p : WfPayload) (obs : Nat → StepObs)
    (hnone : p.htmlFile = none)
    (hsel : p.runDownload = true ∨ p.runMetadata = true) :
    (runWorkflow p obs =
       [Ev.log ⟨"error", "HTML file required to download memories."⟩, Ev.exitC 1] ∨
     runWorkflow p obs =
       [Ev.log ⟨"error", "HTML file required to add metadata."⟩, Ev.exitC 1]) ∧
    invokedCommands (runWorkflow p obs) = [] ∧
    exitCodes (runWorkflow p obs) = [1] := by
  have ht : jsTruthy p.htmlFile = false := by rw [hnone]; rfl
  by_cases hd : p.runDownload = true
  · have hw : runWorkflow p obs =
        [Ev.log ⟨"error", "HTML file required to download memories."⟩, Ev.exitC 1] := by
      simp [runWorkflow, buildSteps, hd, ht]
    exact ⟨Or.inl hw, by rw [hw]; rfl, by rw [hw]; rfl⟩
  · have hm : p.runMetadata = true := by
      rcases hsel with h | h
      · exact absurd h hd
      · exact h
    have hd' : p.runDownload = false := by
      cases hval : p.runDownload
      · rfl
      · exact absurd hval hd
    have hw : runWorkflow p obs =
        [Ev.log ⟨"error", "HTML file required to add metadata."⟩, Ev.exitC 1] := by
      simp [runWorkflow, buildSteps, hd', hm, ht]
    exact ⟨Or.inr hw, by rw [hw]; rfl, by rw [hw]; rfl⟩

/-- Witness for C5: a concrete payload selecting all stages with no html
file dispatches nothing and exits 1. -/
theorem c5_missing_html_aborts_witness :
    invokedCommands (runWorkflow ⟨none, none, true, true, true, true, false, none⟩
      (fun _ => ⟨false, 0, false⟩)) = [] ∧
    exitCodes (runWorkflow ⟨none, none, true, true, true, true, false, none⟩
      (fun _ => ⟨false, 0, false⟩)) = [1] :=
  (c5_missing_html_aborts ⟨none, none, true, true, true, true, false, none⟩
    (fun _ => ⟨false, 0, false⟩) rfl (Or.inl rfl)).2

/-- C7: the renderer's exit listener classifies a terminal code as
success exactly when it is 0 and as error exactly when it is non-zero. -/
theorem c7_exit_classification (c : Int) :
    ((handleExit c).type = "success" ↔ c = 0) ∧
    ((handleExit c).type = "error" ↔ c ≠ 0) := by
  unfold handleExit
  by_cases hc : c = 0 <;> simp [hc]

/-- C8: a stdout line that is empty or consists only of whitespace
produces no progress record at all, whatever the parser would have
returned for it. -/
theorem c8_whitespace_dropped (parse : String → Option LogRec) (line : String)
    (h : line.data.all Char.isWhitespace = true) :
    processLine parse line = [] := by
  simp [processLine, h]

/-- Witness for C8: a two-space line is dropped even though the parser
would have produced a record. -/
theorem c8_whitespace_dropped_witness :
    processLine (fun _ => some ⟨"info", "x"⟩) "  " = [] :=
  c8_whitespace_dropped (fun _ => some ⟨"info", "x"⟩) "  " (by decide)

/-- After a pre-dispatch check that reads the stop flag as set, no
further step is dispatched: the number of dispatches is at most the
index of that check. -/
lemma invoked_le_of_stopB (steps : List WfStep) (obs : Nat → StepObs) (i : Nat)
    (h : (obs i).stopB = true) :
    (invokedCommands (runSteps steps obs)).length ≤ i := by
  induction steps generalizing obs i with
  | nil => simp [runSteps]
  | cons s rest ih =>
    cases i with
    | zero => simp [runSteps, h]
    | succ j =>
      by_cases hb0 : (obs 0).stopB
      · simp [runSteps, hb0]
      · by_cases ha0 : (obs 0).stopA
        · simp [runSteps, hb0, ha0]
        · by_cases hc0 : (obs 0).code = 0
          · have := ih (fun k => obs (k + 1)) j h
            simp only [runSteps, hb0, ha0, hc0, if_false, if_true, Bool.false_eq_true,
              if_neg, invokedCommands_log, invokedCommands_invoke]
            simp only [List.length_cons]
            omega
          · simp [runSteps, hb0, ha0, hc0]

/-- After a post-completion check that reads the stop flag as set, no
further step is dispatched: the number of dispatches is at most one more
than the index of that check. -/
lemma invoked_le_of_stopA (steps : List WfStep) (obs : Nat → StepObs) (i : Nat)
    (h : (obs i).stopA = true) :
    (invokedCommands (runSteps steps obs)).length ≤ i + 1 := by
  induction steps generalizing obs i with
  | nil => simp [runSteps]
  | cons s rest ih =>
    by_cases hb0 : (obs 0).stopB
    · simp [runSteps, hb0]
    · cases i with
      | zero =>
        simp [runSteps, hb0, h]
      | succ j =>
        by_cases ha0 : (obs 0).stopA
        · simp [runSteps, hb0, ha0]
        · by_cases hc0 : (obs 0).code = 0
          · have hrec := ih (fun k => obs (k + 1)) j h
            have hred : invokedCommands (runSteps (s :: rest) obs) =
                s.command :: invokedCommands (runSteps rest (fun k => obs (k + 1))) := by
              simp [runSteps, hb0, ha0, hc0]
            rw [hred, List.length_cons]
            exact Nat.succ_le_succ hrec
          · simp [runSteps, hb0, ha0, hc0]

/-- When the stop flag reads set at every post-completion check, a
non-empty workflow never replies `script-exit` from the loop. -/
lemma exitCodes_nil_of_stopA (s : WfStep) (rest : List WfStep) (obs : Nat → StepObs)
    (h : ∀ i, (obs i).stopA = true) :
    exitCodes (runSteps (s :: rest) obs) = [] := by
  by_cases hb0 : (obs 0).stopB <;> simp [runSteps, hb0, h 0]

/-- C2: (a) once a pre-step check reads the stop flag as set, at most
that many steps were ever dispatched; (b) once a post-step check reads
it as set, at most one more step was dispatched; (c) with the flag set
at the post-step checks, the workflow loop never emits a `script-exit`
of its own; (d) the `stop-script` handler replies with exactly the
distinct stopped status -1, which is not 0 and not any non-negative
subprocess exit code; (e) in single-command mode the stage's exit code
is not re-emitted when the flag was set after the stage completed. -/
theorem c2_stop_request_semantics :
    (∀ (steps : List WfStep) (obs : Nat → StepObs) (i : Nat),
       (obs i).stopB = true → (invokedCommands (runSteps steps obs)).length ≤ i) ∧
    (∀ (steps : List WfStep) (obs : Nat → StepObs) (i : Nat),
       (obs i).stopA = true → (invokedCommands (runSteps steps obs)).length ≤ i + 1) ∧
    (∀ (s : WfStep) (rest : List WfStep) (obs : Nat → StepObs),
       (∀ i, (obs i).stopA = true) → exitCodes (runSteps (s :: rest) obs) = []) ∧
    exitCodes stopScriptEvents = [-1] ∧
    (-1 : Int) ≠ 0 ∧
    (∀ c : Int, 0 ≤ c → c ∉ exitCodes stopScriptEvents) ∧
    (∀ (command : String) (args : List String) (folder : Option String) (code : Int),
       exitCodes (runSingle command args folder code true) = []) := by
  refine ⟨invoked_le_of_stopB, invoked_le_of_stopA, exitCodes_nil_of_stopA, rfl, by decide,
    ?_, ?_⟩
  · intro c hc hmem
    have : c = -1 := by
      simpa [stopScriptEvents] using hmem
    omega
  · intro command args folder code
    rfl

/-- Witness for C2 at concrete inputs: with the stop flag set at every
check, a one-step workflow dispatches nothing and emits no exit of its
own, and a stopped single command does not re-emit its code 7. -/
theorem c2_stop_request_semantics_witness :
    (invokedCommands (runSteps [⟨"Download Memories", "download", ["m.html"]⟩]
       (fun _ => ⟨true, 0, true⟩))).length ≤ 0 ∧
    exitCodes (runSteps [⟨"Download Memories", "download", ["m.html"]⟩]
       (fun _ => ⟨true, 0, true⟩)) = [] ∧
    exitCodes (runSingle "download" ["m.html"] none 7 true) = [] ∧
    (0 : Int) ∉ exitCodes stopScriptEvents := by
  have h := c2_stop_request_semantics
  exact ⟨h.1 _ _ 0 rfl, h.2.2.1 _ [] _ (fun i => rfl), h.2.2.2.2.2.2 _ _ _ _,
    h.2.2.2.2.2.1 0 (by decide)⟩

/-- C4 counterexample: the single-space line is a non-empty line that
`JSON.parse` rejects, yet the handler forwards nothing for it — it is
dropped, not passed through under the raw classification. -/
theorem c4_counterexample :
    processLine (fun _ => (none : Option LogRec)) " " = [] ∧
    (" " : String) ≠ "" := by
  exact ⟨by decide, by decide⟩

/-- C4 (amended): for every stdout line with at least one non-whitespace
character, the classifier is total and lossless: it forwards either the
parsed record or the verbatim line under the raw classification, and
never drops the line. -/
theorem c4_parser_totality (parse : String → Option LogRec) (line : String)
    (h : line.data.all Char.isWhitespace = false) :
    processLine parse line ≠ [] ∧
    ((∃ j, parse line = some j ∧ processLine parse line = [j]) ∨
     (parse line = none ∧ processLine parse line = [⟨"raw", line⟩])) := by
  cases hp : parse line with
  | some j =>
    have he : processLine parse line = [j] := by
      simp [processLine, h, hp]
    exact ⟨by simp [he], Or.inl ⟨j, rfl, he⟩⟩
  | none =>
    have he : processLine parse line = [⟨"raw", line⟩] := by
      simp [processLine, h, hp]
    exact ⟨by simp [he], Or.inr ⟨rfl, he⟩⟩

/-- Witness for C4 (amended): an unparseable line with content is
forwarded verbatim as a raw record. -/
theorem c4_parser_totality_witness :
    processLine (fun _ => (none : Option LogRec)) "hello" = [⟨"raw", "hello"⟩] := by
  have h := c4_parser_totality (fun _ => (none : Option LogRec)) "hello" (by decide)
  rcases h.2 with ⟨j, hj, _⟩ | ⟨_, he⟩
  · exact absurd hj (by simp)
  · exact he

/-- C9: the `run-script` handler's first statement resets `stopRequested`
to false, so whatever stop requests preceded the new run, the flag reads
false when it starts; and a run whose checks all read false dispatches
every selected step. -/
theorem c9_stop_flag_reset :
    (∀ (b : Bool) (prior : List HostMsg),
       stopFlagAfter b (prior ++ [HostMsg.runStart]) = false) ∧
    (∀ steps : List WfStep,
       invokedCommands (runSteps steps (fun _ => ⟨false, 0, false⟩)) =
         steps.map WfStep.command) := by
  constructor
  · intro b prior
    induction prior generalizing b with
    | nil => rfl
    | cons m rest ih => cases m <;> exact ih _
  · intro steps
    induction steps with
    | nil => rfl
    | cons s rest ih => simpa [runSteps] using ih

/-- The invariant behind the `trackProcess` bookkeeping, generalised over
the starting set: membership of the tracked set coincides with the fold
of the per-process liveness transition. -/
lemma mem_foldl_stepActive (p : ℕ) (evs : List ProcEvent) :
    ∀ (acc : Finset ℕ) (b : Bool), (p ∈ acc ↔ b = true) →
      (p ∈ evs.foldl stepActive acc ↔ List.foldl (liveStep p) b evs = true) := by
  induction evs with
  | nil =>
    intro acc b h
    simpa using h
  | cons e rest ih =>
    intro acc b h
    simp only [List.foldl_cons]
    apply ih
    cases e with
    | spawn q =>
      by_cases hq : q = p
      · subst hq; simp [stepActive, liveStep]
      · simp [stepActive, liveStep, hq, Ne.symm hq, h]
    | closeE q =>
      by_cases hq : q = p
      · subst hq; simp [stepActive, liveStep]
      · simp [stepActive, liveStep, hq, Ne.symm hq, h]
    | exitE q =>
      by_cases hq : q = p
      · subst hq; simp [stepActive, liveStep]
      · simp [stepActive, liveStep, hq, Ne.symm hq, h]

/-- C10: at every point, the tracked `activeProcesses` set holds exactly
the processes whose most recent lifecycle event is a spawn — spawned and
neither closed nor exited since — so a stop or quit request signals all
and only the currently live tracked subprocesses. -/
theorem c10_process_tracking (evs : List ProcEvent) (p : ℕ) :
    p ∈ activeAfter evs ↔ liveIn p evs = true := by
  have h := mem_foldl_stepActive p evs ∅ false (by simp)
  simpa [activeAfter, liveIn] using h

/-- C3 counterexample: a workflow payload with dry_run = true that
selects the download stage builds the download step without any
`--dry-run` argument — the stage is not invoked with the dry-run
configuration. -/
theorem c3_counterexample :
    buildSteps ⟨some "memories_history.html", none, true, false, false, false, true, none⟩ =
      Except.ok [⟨"Download Memories", "download", ["memories_history.html"]⟩] ∧
    "--dry-run" ∉ ["memories_history.html"] := by
  exact ⟨rfl, by decide⟩

/-- C3 (amended): when the workflow payload carries dry_run = true (and
no worker count, as the renderer sends), the combine and dedupe steps
are invoked with `--dry-run`, while the download and metadata steps are
invoked without it. -/
theorem c3_dry_run_flag_placement (p : WfPayload) (steps : List WfStep)
    (hdry : p.dryRun = true) (hw : p.workerCount = none)
    (hok : buildSteps p = Except.ok steps)
    (hhtml : ∀ f, p.htmlFile = some f → f ≠ "--dry-run")
    (hfold : ∀ g, p.downloadFolder = some g → g ≠ "--dry-run") :
    ∀ s ∈ steps,
      ((s.command = "combine" ∨ s.command = "dedupe") → "--dry-run" ∈ s.args) ∧
      ((s.command = "download" ∨ s.command = "metadata") → "--dry-run" ∉ s.args) := by
  have hout : ∀ args : List String, "--dry-run" ∉ args →
      "--dry-run" ∉ withOutput p.downloadFolder args := by
    intro args ha
    unfold withOutput
    split_ifs with htr
    · intro hmem
      rcases List.mem_append.mp hmem with hm | hm
      · exact ha hm
      · rcases List.mem_cons.mp hm with hm | hm
        · exact absurd hm (by decide)
        · cases hdf : p.downloadFolder with
          | none => rw [hdf] at htr; exact absurd htr (by decide)
          | some g =>
            rw [hdf] at hm
            have hg : "--dry-run" = g := by simpa using List.mem_singleton.mp hm
            exact (hfold g hdf) hg.symm
    · exact ha
  have hbase : "--dry-run" ∉ htmlArg p.htmlFile ++ workerArgs p.workerCount := by
    rw [hw]
    cases hhf : p.htmlFile with
    | none => simp [htmlArg, workerArgs]
    | some f =>
      have hne := hhtml f hhf
      simp only [htmlArg, workerArgs, List.append_nil, List.mem_singleton]
      intro hcon
      exact hne hcon.symm
  have hdl : "--dry-run" ∉
      withOutput p.downloadFolder (htmlArg p.htmlFile ++ workerArgs p.workerCount) :=
    hout _ hbase
  have hcd : "--dry-run" ∈
      withOutput p.downloadFolder (dryRunArgs p.dryRun ++ workerArgs p.workerCount) := by
    by_cases htr : jsTruthy p.downloadFolder <;>
      simp [withOutput, dryRunArgs, hdry, htr]
  unfold buildSteps at hok
  by_cases h1 : (p.runDownload && !jsTruthy p.htmlFile) = true
  · rw [if_pos h1] at hok
    exact absurd hok (by simp)
  · rw [if_neg h1] at hok
    by_cases h2 : (p.runMetadata && !jsTruthy p.htmlFile) = true
    · rw [if_pos h2] at hok
      exact absurd hok (by simp)
    · rw [if_neg h2] at hok
      injection hok with hok
      subst hok
      intro s hs
      rcases List.mem_append.mp hs with hs3 | hD
      · rcases List.mem_append.mp hs3 with hs2 | hC
        · rcases List.mem_append.mp hs2 with hA | hB
          · by_cases hd : p.runDownload
            · simp only [hd, if_true, List.mem_singleton] at hA
              subst hA
              refine ⟨fun hcmd => ?_, fun _ => hdl⟩
              rcases hcmd with hcm | hcm <;> simp at hcm
            · simp [hd] at hA
          · by_cases hm : p.runMetadata
            · simp only [hm, if_true, List.mem_singleton] at hB
              subst hB
              refine ⟨fun hcmd => ?_, fun _ => hdl⟩
              rcases hcmd with hcm | hcm <;> simp at hcm
            · simp [hm] at hB
        · by_cases hc : p.runCombine
          · simp only [hc, if_true, List.mem_singleton] at hC
            subst hC
            refine ⟨fun _ => hcd, fun hcmd => ?_⟩
            rcases hcmd with hcm | hcm <;> simp at hcm
          · simp [hc] at hC
      · by_cases hdd : p.runDedupe
        · simp only [hdd, if_true, List.mem_singleton] at hD
          subst hD
          refine ⟨fun _ => hcd, fun hcmd => ?_⟩
          rcases hcmd with hcm | hcm <;> simp at hcm
        · simp [hdd] at hD

/-- Witness for C3 (amended) at a concrete dry-run payload selecting
download and combine: combine receives the flag, download does not. -/
theorem c3_dry_run_flag_placement_witness :
    "--dry-run" ∈ (WfStep.mk "Combine Overlays" "combine" ["--dry-run"]).args ∧
    "--dry-run" ∉ (WfStep.mk "Download Memories" "download" ["m.html"]).args := by
  have h := c3_dry_run_flag_placement
    ⟨some "m.html", none, true, false, true, false, true, none⟩
    [⟨"Download Memories", "download", ["m.html"]⟩,
     ⟨"Combine Overlays", "combine", ["--dry-run"]⟩]
    rfl rfl rfl
    (fun f hf => by cases hf; decide)
    (fun g hg => by cases hg)
  exact ⟨(h _ (by decide)).1 (Or.inl rfl), (h _ (by decide)).2 (Or.inl rfl)⟩

/-- C6 counterexample: on the win32 platform the first (and only)
termination action sent to a tracked process is the forced
`taskkill /T /F` tree kill, not a graceful interrupt. -/
theorem c6_counterexample :
    terminateOne "win32" (some 1234) = [KillAct.taskkillTree 1234] ∧
    KillAct.taskkillTree 1234 ≠ KillAct.sig "SIGINT" := by
  exact ⟨by decide, by decide⟩

/-- C6 (amended): on every platform other than win32, the first
termination action sent to each tracked process is the graceful SIGINT,
and the forced SIGTERM follows only as a delayed (1500 ms) fallback. -/
theorem c6_graceful_on_posix (platform : String) (procs : List (Option Nat))
    (hplat : platform ≠ "win32") :
    ∀ pr ∈ terminateActive platform procs,
      pr.2 = [KillAct.sig "SIGINT", KillAct.delayedSig 1500 "SIGTERM"] ∧
      pr.2.head? = some (KillAct.sig "SIGINT") := by
  intro pr hpr
  rcases List.mem_map.mp hpr with ⟨q, hq, rfl⟩
  constructor <;> simp [terminateOne, hplat]

/-- Witness for C6 (amended): on darwin the first action is SIGINT. -/
theorem c6_graceful_on_posix_witness :
    (terminateOne "darwin" (some 5)).head? = some (KillAct.sig "SIGINT") := by
  have h := c6_graceful_on_posix "darwin" [some 5] (by decide)
  exact (h (some 5, terminateOne "darwin" (some 5)) (by decide)).2

/-- Witness for C7: code 0 is classified success and code 7 error. -/
theorem c7_exit_classification_witness :
    (handleExit 0).type = "success" ∧ (handleExit 7).type = "error" :=
  ⟨(c7_exit_classification 0).1.mpr rfl, (c7_exit_classification 7).2.mpr (by decide)⟩

/-- Witness for C9: a stop request directly before a new run leaves the
new run's flag false. -/
theorem c9_stop_flag_reset_witness :
    stopFlagAfter true ([HostMsg.stopReq] ++ [HostMsg.runStart]) = false :=
  c9_stop_flag_reset.1 true [HostMsg.stopReq]

/-- Witness for C10: after spawning 7 and 3 and closing 3, exactly the
still-live process 7 is tracked. -/
theorem c10_process_tracking_witness :
    7 ∈ activeAfter [ProcEvent.spawn 7, ProcEvent.spawn 3, ProcEvent.closeE 3] :=
  (c10_process_tracking [ProcEvent.spawn 7, ProcEvent.spawn 3, ProcEvent.closeE 3] 7).mpr
    (by decide)
